import Mathlib

/-!
Shallow embedding of the Account Acquisition Engine of `nab-banking-api`
(Go sources: `internal/service/account.go`, the `browser` package,
`internal/api/handler/accounts.go`, the mock client, `internal/model`).
Pure data flow is translated function-by-function from the Go source;
the browser-automation engine (chromedp) is abstracted as an explicit
environment of probe/click/type outcomes, and the diagnostics collector
(screenshot capture) is modelled by counting its invocations.
-/

namespace NabApi

/-! ## Data model (Go package `internal/model`)

`time.Time` values are embedded as `String` stamps: the engine only stores
them, never computes with them. -/

structure Money where
  amount : String
deriving DecidableEq

structure Account where
  id : String
  name : String
  type : String
  balance : Money
  availableBalance : Option Money
  accountNumber : Option String
  bsb : Option String
  lastUpdated : Option String
deriving DecidableEq

structure Transaction where
  id : String
  date : String
  description : String
  amount : Money
  balance : Money
  category : Option String
  merchant : Option String
deriving DecidableEq

/-- Go `model.AccountDetails`: an account embedded together with its
transactions and `RecentTransactionCount = len(transactions)`. -/
structure AccountDetails where
  account : Account
  transactions : List Transaction
  recentTransactionCount : Nat
deriving DecidableEq

/-- Go `model.AccountTypeSavings`. -/
def accountTypeSavings : String := "savings"
/-- Go `model.AccountTypeChecking`. -/
def accountTypeChecking : String := "checking"
/-- Go `model.AccountTypeCredit`. -/
def accountTypeCredit : String := "credit"
/-- Go `model.AccountTypeLoan`. -/
def accountTypeLoan : String := "loan"
/-- Go `model.AccountTypeInvestment`. -/
def accountTypeInvestment : String := "investment"

/-! ## Service-layer errors (Go `internal/service/account.go` lines 17-22)

Go errors are compared by identity in the handler's `switch err`; a
`fmt.Errorf("...: %w", err)` wrapped error is a distinct value that never
equals a sentinel.  `scrapeFailed raw` embeds the wrapped error produced at
`browser.GetAccounts` (`"failed to scrape NAB accounts: %w"`), carrying the
raw underlying engine error text. -/

inductive SvcError where
  | accountNotFound
  | serviceUnavailable
  | authenticationFailed
  | scrapeFailed (raw : String)
deriving DecidableEq

/-- Outcome classes of the HTTP handler `GetAccount` (accounts.go lines
60-74): the `switch` on error identity, with the `default` branch mapping
everything else to the generic internal-error response. -/
inductive ErrKind where
  | accountNotFound
  | serviceUnavailable
  | authenticationFailed
  | internalError
deriving DecidableEq

/-- Embedding of the handler's `switch err` (accounts.go lines 62-72). -/
def classifyHandler : SvcError → ErrKind
  | .accountNotFound => .accountNotFound
  | .serviceUnavailable => .serviceUnavailable
  | .authenticationFailed => .authenticationFailed
  | .scrapeFailed _ => .internalError

/-- Modelled from the spec: the spec declares the error kinds
`AuthenticationFailed`, `Timeout`, `AccountNotFound`,
`TransientUnavailable` (spec section 7).  In the code these correspond to
the sentinel errors `ErrAuthenticationFailed`, `ErrAccountNotFound`,
`ErrServiceUnavailable`; no `Timeout` sentinel exists anywhere, so a
timeout can only surface as a raw engine error.  An error is of a declared
kind exactly when it is one of the sentinels. -/
def isDeclaredKind : SvcError → Bool
  | .scrapeFailed _ => false
  | _ => true

/-! ## Service layer (Go `accountService.GetAccountDetails`, account.go
lines 59-95)

The NAB client is passed in as data: the result of its `GetAccounts` call
and its `GetAccountTransactions` function.  The returned `Nat` counts how
many times `GetAccountTransactions` was invoked, so that "without
attempting to fetch transactions" is provable.  `now` stands for the
`time.Now()` stamp written into `LastUpdated`. -/

def getAccountDetails (accountsRes : Except SvcError (List Account))
    (getTxns : String → Except SvcError (List Transaction))
    (now : String) (accountID : String) : Nat × Except SvcError AccountDetails :=
  match accountsRes with
  | .error e => (0, .error e)
  | .ok accounts =>
    match accounts.find? (fun a => a.id == accountID) with
    | none => (0, .error .accountNotFound)
    | some target =>
      match getTxns accountID with
      | .error e => (1, .error e)
      | .ok txns =>
        (1, .ok { account := { target with lastUpdated := some now }
                  transactions := txns
                  recentTransactionCount := txns.length })

/-! ## Mock provider (Go `MockNABClient`, second half of accounts.go) -/

/-- Go `MockNABClient.GetAccounts` fixed data (lines 121-165). -/
def mockAccounts : List Account :=
  [ { id := "12345678"
      name := "Complete Access Account"
      type := accountTypeSavings
      balance := { amount := "2543.67" }
      availableBalance := some { amount := "2543.67" }
      accountNumber := some "****5678"
      bsb := some "084001"
      lastUpdated := none }
  , { id := "87654321"
      name := "NAB Classic Banking Account"
      type := accountTypeChecking
      balance := { amount := "847.23" }
      availableBalance := some { amount := "847.23" }
      accountNumber := some "****4321"
      bsb := some "084001"
      lastUpdated := none }
  , { id := "11223344"
      name := "NAB Reward Saver"
      type := accountTypeSavings
      balance := { amount := "15420.89" }
      availableBalance := some { amount := "15420.89" }
      accountNumber := some "****3344"
      bsb := some "084001"
      lastUpdated := none } ]

/-- Go `MockNABClient.GetAccounts` always returns `mockAccounts, nil`. -/
def mockGetAccounts : Except SvcError (List Account) := .ok mockAccounts

/-- Go `MockNABClient.GetAccountTransactions` (lines 168-213): three fixed
transactions whose IDs are suffixed with the requested account ID; the
three dates are `time.Now()` shifted back by 1, 2 and 3 days, embedded
here as the parameters `d1 d2 d3`. -/
def mockGetAccountTransactions (d1 d2 d3 : String) (accountID : String) :
    List Transaction :=
  [ { id := "txn_001_" ++ accountID
      date := d1
      description := "EFTPOS Purchase - COLES SUPERMARKET"
      amount := { amount := "-85.67" }
      balance := { amount := "2543.67" }
      category := some "Groceries"
      merchant := some "COLES SUPERMARKET" }
  , { id := "txn_002_" ++ accountID
      date := d2
      description := "Direct Credit - SALARY PAYMENT"
      amount := { amount := "2500.00" }
      balance := { amount := "2629.34" }
      category := some "Income"
      merchant := some "EMPLOYER PTY LTD" }
  , { id := "txn_003_" ++ accountID
      date := d3
      description := "ATM Withdrawal - NAB ATM"
      amount := { amount := "-100.00" }
      balance := { amount := "129.34" }
      category := some "Cash"
      merchant := some "NAB ATM" } ]

/-- Suffix test on strings, used to state that transaction identifiers end
in `_<accountID>`. -/
def strEndsWith (s suffix : String) : Bool :=
  suffix.data.isSuffixOf s.data

/-- First projection of an `Except` when it succeeded. -/
def exceptOk : Except SvcError AccountDetails → Option AccountDetails
  | .ok d => some d
  | .error _ => none

/-! ## Selector resolution (Go `browser` package)

Each Go resolution loop (`clickLoginButton` lines 211-218,
`selectInternetBanking` lines 246-253, and the three loops of
`performLogin` lines 290-322) walks an ordered selector list, issues a
`chromedp.WaitVisible` probe per selector, and acts on the first selector
whose probe succeeds.  `resolveFirst` is that loop's result and
`probeTrace` the exact sequence of selectors probed by it. -/

def resolveFirst (visible : String → Bool) : List String → Option String
  | [] => none
  | s :: rest => if visible s then some s else resolveFirst visible rest

def probeTrace (visible : String → Bool) : List String → List String
  | [] => []
  | s :: rest => if visible s then [s] else s :: probeTrace visible rest

/-- Go `loginButtonSelectors` (browser source, lines 198-208). -/
def loginButtonSelectors : List String :=
  [ "button[class*=\"login\"]"
  , "a[class*=\"login\"]"
  , "[role=\"button\"][class*=\"login\"]"
  , "button[title*=\"Login\"]"
  , "a[title*=\"Login\"]"
  , ".header button"
  , ".navigation button"
  , "button"
  , "a[href*=\"login\"]" ]

/-- Go `internetBankingSelectors` (lines 235-243). -/
def internetBankingSelectors : List String :=
  [ "a[href*=\"internet-banking\"]"
  , "a[href*=\"internetbanking\"]"
  , "a[title*=\"Internet Banking\"]"
  , "[role=\"menuitem\"][href*=\"banking\"]"
  , ".dropdown a[href*=\"banking\"]"
  , ".menu a[href*=\"banking\"]"
  , "a[href*=\"personal/online-banking\"]" ]

/-- Go `loginSelectors` of `performLogin` (lines 265-270). -/
def loginSelectors : List String :=
  [ "input[name=\"userid\"]"
  , "input[id=\"userid\"]"
  , "input[type=\"text\"][placeholder*=\"ID\"]"
  , "input[type=\"text\"][placeholder*=\"username\"]" ]

/-- Go `passwordSelectors` (lines 272-276). -/
def passwordSelectors : List String :=
  [ "input[name=\"password\"]"
  , "input[id=\"password\"]"
  , "input[type=\"password\"]" ]

/-- Go `submitSelectors` (lines 278-284). -/
def submitSelectors : List String :=
  [ "input[type=\"submit\"]"
  , "button[type=\"submit\"]"
  , "button[class*=\"submit\"]"
  , "input[value*=\"Log\"]"
  , "button[class*=\"login\"]" ]

/-! ## Field extraction engine (Go helper functions of the browser client)

Go regexps are embedded as direct character-list scanners.  The two
patterns that matter here, `\$[\d,]+\.[\d]{2}` (page-level extraction,
line 364) and `\$?([\d,]+\.[\d]{2})` (single-amount helper, line 454),
admit no backtracking: the greedy `[\d,]+` run can only be followed by a
literal dot, which is not a run character, so maximal munch is exact, and
scanning positions left to right gives the leftmost (RE2) match. -/

/-- A character matched by the `[\d,]` class. -/
def isAmtChar (c : Char) : Bool := c.isDigit || c == ','

/-- Matches `[\d,]+\.[\d]{2}` at the head of `l`; on success returns the
matched characters and the remainder of the input. -/
def matchAmount (l : List Char) : Option (List Char × List Char) :=
  match l.dropWhile isAmtChar with
  | '.' :: d1 :: d2 :: r2 =>
    if (l.takeWhile isAmtChar).isEmpty = true then none
    else if (d1.isDigit && d2.isDigit) = true then
      some (l.takeWhile isAmtChar ++ ['.', d1, d2], r2)
    else none
  | _ => none

/-- All matches of `\$[\d,]+\.[\d]{2}` (non-overlapping, leftmost first),
as in `regexp.FindAllString(pageSource, -1)` at line 365.  Structural
recursion on a fuel bounded by the input length so that concrete inputs
evaluate by `decide`. -/
def findBalancesFuel : Nat → List Char → List (List Char)
  | 0, _ => []
  | _, [] => []
  | fuel + 1, c :: rest =>
    if c = '$' then
      match matchAmount rest with
      | some (m, r2) => ('$' :: m) :: findBalancesFuel fuel r2
      | none => findBalancesFuel fuel rest
    else findBalancesFuel fuel rest

def findBalances (l : List Char) : List (List Char) :=
  findBalancesFuel l.length l

/-- Go `strings.TrimPrefix(balance, "$")`. -/
def trimDollar : List Char → List Char
  | '$' :: r => r
  | r => r

/-- Go line 369: `strings.ReplaceAll(strings.TrimPrefix(balance, "$"),
",", "")`. -/
def cleanChars (m : List Char) : List Char :=
  (trimDollar m).filter (fun c => c != ',')

/-- The account record built by one iteration of the loop at lines
367-380, with `n` the 1-based position. -/
def mkScrapedAccount (n : Nat) (balance : List Char) : Account :=
  let cleanBalance := String.mk (cleanChars balance)
  { id := "account_" ++ toString n
    name := "NAB Account " ++ toString n
    type := accountTypeSavings
    balance := { amount := cleanBalance }
    availableBalance := some { amount := cleanBalance }
    accountNumber := none
    bsb := none
    lastUpdated := none }

/-- The Go loop `for i, balance := range balances` (lines 367-380), with
`n` the 1-based position of the next match. -/
def buildAccounts : Nat → List (List Char) → List Account
  | _, [] => []
  | n, b :: rest => mkScrapedAccount n b :: buildAccounts (n + 1) rest

/-- Go `extractAccountsGeneric` (lines 354-383): one account per match of
the currency pattern in the page source, in match order. -/
def extractAccountsGeneric (pageSource : String) : List Account :=
  buildAccounts 1 (findBalances pageSource.data)

/-- Go `strings.ToLower` restricted to ASCII (all keywords involved are
ASCII). -/
def toLowerStr (s : String) : String :=
  String.mk (s.data.map Char.toLower)

/-- Substring occurrence check, as `strings.Contains(haystack, pat)`. -/
def containsAux (pat : List Char) : List Char → Bool
  | [] => pat.isEmpty
  | c :: t => pat.isPrefixOf (c :: t) || containsAux pat t

def strContains (s sub : String) : Bool :=
  containsAux sub.data s.data

/-- Go `extractAccountType` (lines 433-450): case-insensitive keyword
table, savings terms first, then credit, loan, investment; default
checking. -/
def extractAccountType (text : String) : String :=
  let textLower := toLowerStr text
  if strContains textLower "saver" || strContains textLower "savings" then
    accountTypeSavings
  else if strContains textLower "credit" then accountTypeCredit
  else if strContains textLower "loan" then accountTypeLoan
  else if strContains textLower "investment" then accountTypeInvestment
  else accountTypeChecking

/-- First match of `\$?([\d,]+\.[\d]{2})`, returning the captured group:
scanning left to right, at a `$` the group must start right after it
(`[\d,]` cannot match `$`, so the optional `$` branch is forced), else the
group starts at the current position. -/
def extractBalanceAux : List Char → Option (List Char)
  | [] => none
  | c :: rest =>
    if c = '$' then
      match matchAmount rest with
      | some (m, _) => some m
      | none => extractBalanceAux rest
    else
      match matchAmount (c :: rest) with
      | some (m, _) => some m
      | none => extractBalanceAux rest

/-- Go `extractBalance` (lines 452-461): comma-stripped first captured
group, or `""` when there is no match. -/
def extractBalance (text : String) : String :=
  match extractBalanceAux text.data with
  | some m => String.mk (m.filter (fun c => c != ','))
  | none => ""

/-- A normalized balance character list as claim C4 describes the
extractor's output: digits and one dot only, with exactly two digits after
the dot. -/
def isNormalizedChars (l : List Char) : Bool :=
  match l.reverse with
  | d2 :: d1 :: '.' :: intPart =>
    d1.isDigit && d2.isDigit && intPart.all (fun c => c.isDigit)
  | _ => false

/-- `isNormalizedChars` on a string's characters. -/
def isNormalizedAmount (s : String) : Bool :=
  isNormalizedChars s.data

/-! ## The browser session pipeline (Go `NABClient.GetAccounts`)

The chromedp engine is abstracted as a deterministic environment: which
selectors are visible, which clicks and keystroke sends succeed, whether
navigation succeeds, and the rendered page source.  Every step result is
`Except String Unit` carrying the Go error message; the `Nat` component
counts `takeScreenshot` invocations (the Diagnostics Collector). -/

structure BrowserEnv where
  navigateOk : Bool
  visible : String → Bool
  clickOk : String → Bool
  sendKeysOk : String → Bool
  pageSource : String

/-- Go `clickLoginButton` (lines 193-224): probe the selectors in order,
click the first visible one; if the set is exhausted, take one screenshot
and fail with an error naming the role. -/
def clickLoginButtonStep (env : BrowserEnv) : Nat × Except String Unit :=
  match resolveFirst env.visible loginButtonSelectors with
  | some s => (0, if env.clickOk s then .ok () else .error ("click failed on " ++ s))
  | none => (1, .error "could not find login button")

/-- Go `selectInternetBanking` (lines 227-259): same shape over the
internet-banking selector set. -/
def selectInternetBankingStep (env : BrowserEnv) : Nat × Except String Unit :=
  match resolveFirst env.visible internetBankingSelectors with
  | some s => (0, if env.clickOk s then .ok () else .error ("click failed on " ++ s))
  | none => (1, .error "could not find Internet Banking link in dropdown")

/-- Go `performLogin` (lines 262-335): resolve username, password and
submit selector sets (failing with a role-naming error and no screenshot),
then type username, type password, click submit. -/
def performLoginStep (env : BrowserEnv) : Except String Unit :=
  match resolveFirst env.visible loginSelectors with
  | none => .error "could not find username input field"
  | some u =>
    match resolveFirst env.visible passwordSelectors with
    | none => .error "could not find password input field"
    | some p =>
      match resolveFirst env.visible submitSelectors with
      | none => .error "could not find submit button"
      | some sb =>
        if env.sendKeysOk u then
          if env.sendKeysOk p then
            if env.clickOk sb then .ok ()
            else .error ("click failed on " ++ sb)
          else .error ("sendkeys failed on " ++ p)
        else .error ("sendkeys failed on " ++ u)

/-- Go `scrapeAccounts` (lines 338-350): runs the generic extractor over
the page source and always returns a nil error, even for an empty result
list. -/
def scrapeAccountsStep (env : BrowserEnv) : Except String (List Account) :=
  .ok (extractAccountsGeneric env.pageSource)

/-- The `chromedp.Run` action list of Go `GetAccounts` (lines 151-171):
navigate, wait for body, click login, select internet banking, perform
login, wait for body again, scrape.  Stops at the first failing action,
accumulating screenshot counts of the steps run so far. -/
def runScrapeSequence (env : BrowserEnv) : Nat × Except String (List Account) :=
  if env.navigateOk = false then (0, .error "navigation failed")
  else if env.visible "body" = false then (0, .error "body not visible")
  else
    match clickLoginButtonStep env with
    | (n1, .error e) => (n1, .error e)
    | (n1, .ok _) =>
      match selectInternetBankingStep env with
      | (n2, .error e) => (n1 + n2, .error e)
      | (n2, .ok _) =>
        match performLoginStep env with
        | .error e => (n1 + n2, .error e)
        | .ok _ =>
          if env.visible "body" = false then (n1 + n2, .error "body not visible")
          else
            match scrapeAccountsStep env with
            | .error e => (n1 + n2, .error e)
            | .ok accounts => (n1 + n2, .ok accounts)

/-- Go `NABClient.GetAccounts` (lines 127-181): run the sequence; on any
error take one more screenshot and return the raw error wrapped as
`"failed to scrape NAB accounts: %w"`; on success return the accounts. -/
def getAccounts (env : BrowserEnv) : Nat × Except SvcError (List Account) :=
  match runScrapeSequence env with
  | (n, .ok accounts) => (n, .ok accounts)
  | (n, .error e) => (n + 1, .error (.scrapeFailed e))

/-- A concrete environment in which only `body` is visible: navigation
succeeds, the login-button candidate set is exhausted. -/
def noVisEnv : BrowserEnv :=
  { navigateOk := true
    visible := fun s => s == "body"
    clickOk := fun _ => true
    sendKeysOk := fun _ => true
    pageSource := "" }

/-- A concrete environment in which everything succeeds and the page is
empty: the happy path. -/
def allVisEnv : BrowserEnv :=
  { navigateOk := true
    visible := fun _ => true
    clickOk := fun _ => true
    sendKeysOk := fun _ => true
    pageSource := "" }

/-! ## Claims C7, C8, C9 -/

/-- Claim C7: for every account identifier absent from the freshly listed
account set, `GetAccountDetails` returns the dedicated
`ErrAccountNotFound` error — never a generic one — and performs zero
`GetAccountTransactions` calls. -/
theorem getAccountDetails_not_found
    (accounts : List Account)
    (getTxns : String → Except SvcError (List Transaction))
    (now accountID : String)
    (h : accountID ∉ accounts.map Account.id) :
    getAccountDetails (.ok accounts) getTxns now accountID
      = (0, .error SvcError.accountNotFound) := by
  have hfind : accounts.find? (fun a => a.id == accountID) = none := by
    rw [List.find?_eq_none]
    intro a ha hbeq
    exact h (List.mem_map.mpr ⟨a, ha, by simpa using hbeq⟩)
  simp [getAccountDetails, hfind]

/-- Witness for C7: the concrete identifier `"doesnotexist"` against the
mock account listing. -/
theorem getAccountDetails_not_found_witness :
    getAccountDetails (.ok mockAccounts) (fun _ => .ok []) "t" "doesnotexist"
      = (0, .error SvcError.accountNotFound) :=
  getAccountDetails_not_found mockAccounts (fun _ => .ok []) "t" "doesnotexist"
    (by decide)

/-- Claim C8: the mock provider's `GetAccounts` always succeeds with
exactly 3 accounts, identifiers `12345678`, `87654321`, `11223344` and
balances `2543.67`, `847.23`, `15420.89`, in that order. -/
theorem mockGetAccounts_spec :
    mockGetAccounts = Except.ok mockAccounts
    ∧ mockAccounts.length = 3
    ∧ mockAccounts.map (fun a => a.id) = ["12345678", "87654321", "11223344"]
    ∧ mockAccounts.map (fun a => a.balance.amount)
        = ["2543.67", "847.23", "15420.89"] :=
  ⟨rfl, rfl, rfl, rfl⟩

/-- Claim C9: fetching details for `87654321` against the mock provider
yields that account together with 3 transactions, each of whose
identifiers ends with `_87654321` (for any transaction dates and
timestamp). -/
theorem mockAccountDetails_spec (d1 d2 d3 now : String) :
    Option.map
      (fun d => (d.account.id, d.transactions.length,
        (d.transactions.map (fun t => t.id)).all
          (fun s => strEndsWith s "_87654321")))
      (exceptOk (getAccountDetails mockGetAccounts
        (fun aid => Except.ok (mockGetAccountTransactions d1 d2 d3 aid))
        now "87654321").snd)
      = some ("87654321", 3, true) := rfl

/-! ## Claim C1 -/

/-- Claim C1: for every visibility oracle and every candidate list split
as `pre ++ c :: post` where every candidate of `pre` fails its probe and
`c` succeeds, resolution returns `c` — the first listed candidate that
resolves, not a best match — and the probes issued are exactly
`pre ++ [c]`: no candidate after `c` is probed. -/
theorem selectorResolution_first_listed_wins
    (visible : String → Bool) (pre post : List String) (c : String)
    (hpre : ∀ s ∈ pre, visible s = false) (hc : visible c = true) :
    resolveFirst visible (pre ++ c :: post) = some c
    ∧ probeTrace visible (pre ++ c :: post) = pre ++ [c] := by
  induction pre with
  | nil => simp [resolveFirst, probeTrace, hc]
  | cons s rest ih =>
    have hs : visible s = false := hpre s (by simp)
    have hrest : ∀ t ∈ rest, visible t = false := fun t ht => hpre t (by simp [ht])
    have := ih hrest
    simp [resolveFirst, probeTrace, hs, this.1, this.2]

/-- Witness for C1: with only `"button"` visible, resolution over the
login-button candidate set stops at `"button"` (the 8th candidate) and
never probes the final `a[href*="login"]` candidate. -/
theorem selectorResolution_first_listed_wins_witness :
    resolveFirst (fun s => s == "button")
        (loginButtonSelectors.take 7 ++ "button" :: ["a[href*=\"login\"]"])
      = some "button"
    ∧ probeTrace (fun s => s == "button")
        (loginButtonSelectors.take 7 ++ "button" :: ["a[href*=\"login\"]"])
      = loginButtonSelectors.take 7 ++ ["button"] :=
  selectorResolution_first_listed_wins (fun s => s == "button")
    (loginButtonSelectors.take 7) ["a[href*=\"login\"]"] "button"
    (by decide) (by decide)

/-! ## Claims C2 and C3: error classification and diagnostics capture -/

/-- If every candidate's probe fails, the resolution loop is exhausted. -/
theorem resolveFirst_none (visible : String → Bool) (l : List String)
    (h : ∀ s ∈ l, visible s = false) : resolveFirst visible l = none := by
  induction l with
  | nil => rfl
  | cons s t ih =>
    simp only [resolveFirst, h s (by simp), if_false]
    exact ih (fun x hx => h x (by simp [hx]))

/-- The login-button step takes no screenshot when it succeeds. -/
theorem clickLoginButtonStep_ok_count (env : BrowserEnv) (n : Nat) (u : Unit)
    (h : clickLoginButtonStep env = (n, .ok u)) : n = 0 := by
  unfold clickLoginButtonStep at h
  cases hres : resolveFirst env.visible loginButtonSelectors with
  | none => rw [hres] at h; simp at h
  | some s => rw [hres] at h; exact (Prod.mk.injEq _ _ _ _ ▸ h).1.symm

/-- The internet-banking step takes no screenshot when it succeeds. -/
theorem selectInternetBankingStep_ok_count (env : BrowserEnv) (n : Nat) (u : Unit)
    (h : selectInternetBankingStep env = (n, .ok u)) : n = 0 := by
  unfold selectInternetBankingStep at h
  cases hres : resolveFirst env.visible internetBankingSelectors with
  | none => rw [hres] at h; simp at h
  | some s => rw [hres] at h; exact (Prod.mk.injEq _ _ _ _ ▸ h).1.symm

/-- A successful run of the whole scrape sequence takes no screenshot. -/
theorem runScrapeSequence_ok_count (env : BrowserEnv) (n : Nat)
    (accs : List Account) (h : runScrapeSequence env = (n, .ok accs)) :
    n = 0 := by
  unfold runScrapeSequence at h
  split at h
  · simp at h
  · split at h
    · simp at h
    · rcases hc : clickLoginButtonStep env with ⟨n1, r1⟩
      rw [hc] at h
      cases r1 with
      | error e => simp at h
      | ok u1 =>
        rcases hs : selectInternetBankingStep env with ⟨n2, r2⟩
        rw [hs] at h
        cases r2 with
        | error e => simp at h
        | ok u2 =>
          have h1 : n1 = 0 := clickLoginButtonStep_ok_count env n1 u1 hc
          have h2 : n2 = 0 := selectInternetBankingStep_ok_count env n2 u2 hs
          cases hp : performLoginStep env with
          | error e => rw [hp] at h; simp at h
          | ok u3 =>
            rw [hp] at h
            split at h
            · simp at h
            · simp_all [scrapeAccountsStep, Prod.ext_iff]
              omega

/-- Claim C2, amended: the browser client's `GetAccounts` performs no
classification at all — every failure it returns is the raw engine error
wrapped as the scrape-failure error (not one of the declared sentinel
kinds), and the HTTP handler can only map it to the generic internal-error
response through its `default` branch.  The only dedicated kind produced
in this flow is `AccountNotFound`, from `GetAccountDetails`. -/
theorem getAccounts_error_unclassified (env : BrowserEnv) (e : SvcError)
    (h : (getAccounts env).snd = .error e) :
    (∃ raw, e = SvcError.scrapeFailed raw)
    ∧ classifyHandler e = ErrKind.internalError
    ∧ isDeclaredKind e = false := by
  unfold getAccounts at h
  rcases hr : runScrapeSequence env with ⟨n, r⟩
  rw [hr] at h
  cases r with
  | ok a => simp at h
  | error msg =>
    simp only [Except.error.injEq] at h
    subst h
    exact ⟨⟨msg, rfl⟩, rfl, rfl⟩

/-- Counterexample for C2: with only `body` visible the scrape fails with
the wrapped raw error `could not find login button`, which is none of the
declared kinds, and the handler's `default` branch must handle it. -/
theorem getAccounts_classification_counterexample :
    (getAccounts noVisEnv).snd
      = Except.error (SvcError.scrapeFailed "could not find login button")
    ∧ isDeclaredKind (SvcError.scrapeFailed "could not find login button") = false
    ∧ classifyHandler (SvcError.scrapeFailed "could not find login button")
      = ErrKind.internalError :=
  ⟨rfl, rfl, rfl⟩

/-- Witness for C2 (amended): the theorem applied to the concrete failing
environment. -/
theorem getAccounts_error_unclassified_witness :
    (∃ raw, SvcError.scrapeFailed "could not find login button"
      = SvcError.scrapeFailed raw)
    ∧ classifyHandler (SvcError.scrapeFailed "could not find login button")
      = ErrKind.internalError
    ∧ isDeclaredKind (SvcError.scrapeFailed "could not find login button")
      = false :=
  getAccounts_error_unclassified noVisEnv
    (SvcError.scrapeFailed "could not find login button") rfl

/-- Claim C3, amended: diagnostics capture is never triggered on success,
and when the login-button candidate set is exhausted the terminal failure
names the unresolved role but capture is triggered twice — once inside the
resolution step (`login_button_not_found`) and once more on the terminal
error path of `GetAccounts` — not exactly once as claimed. -/
theorem diagnostics_capture_spec :
    (∀ env : BrowserEnv, ∀ accs, (getAccounts env).snd = Except.ok accs →
        (getAccounts env).fst = 0)
    ∧ (∀ env : BrowserEnv, env.navigateOk = true → env.visible "body" = true →
        (∀ s ∈ loginButtonSelectors, env.visible s = false) →
        getAccounts env
          = (2, Except.error (SvcError.scrapeFailed "could not find login button"))) := by
  constructor
  · intro env accs h
    unfold getAccounts at h ⊢
    rcases hr : runScrapeSequence env with ⟨n, r⟩
    rw [hr] at h
    cases r with
    | error msg => simp at h
    | ok a => exact runScrapeSequence_ok_count env n a hr
  · intro env hnav hbody hsel
    have hclick : clickLoginButtonStep env
        = (1, .error "could not find login button") := by
      unfold clickLoginButtonStep
      rw [resolveFirst_none env.visible loginButtonSelectors hsel]
    simp [getAccounts, runScrapeSequence, hclick, hnav, hbody]

/-- Counterexample for C3: in the concrete environment where no
login-button candidate resolves, the terminal failure names the role but
the screenshot capture fires twice, not exactly once. -/
theorem diagnostics_capture_once_counterexample :
    (∀ s ∈ loginButtonSelectors, noVisEnv.visible s = false)
    ∧ (getAccounts noVisEnv).snd
        = Except.error (SvcError.scrapeFailed "could not find login button")
    ∧ (getAccounts noVisEnv).fst = 2 :=
  ⟨by decide, rfl, rfl⟩

/-- Witness for C3 (amended): both parts applied to concrete
environments — the exhausted candidate set fires two captures, the
successful run fires none. -/
theorem diagnostics_capture_spec_witness :
    getAccounts noVisEnv
      = (2, Except.error (SvcError.scrapeFailed "could not find login button"))
    ∧ (getAccounts allVisEnv).fst = 0 :=
  ⟨diagnostics_capture_spec.2 noVisEnv (by decide) (by decide) (by decide),
   diagnostics_capture_spec.1 allVisEnv [] rfl⟩

/-! ## Claim C5: account-type classification -/

/-- Claim C5: account-type classification searches a case-insensitive
keyword table in a fixed order — savings terms (`saver`, `savings`) first,
then `credit`, then `loan`, then `investment` — returning on the first
match, and defaults to `checking`; in particular `reward saver` classifies
as savings, a text containing only `credit card` as credit, a text with
both savings and credit terms as savings (order), and keyword-free text as
checking. -/
theorem extractAccountType_spec :
    (∀ text : String,
      ((strContains (toLowerStr text) "saver"
          || strContains (toLowerStr text) "savings") = true →
        extractAccountType text = "savings")
      ∧ ((strContains (toLowerStr text) "saver"
          || strContains (toLowerStr text) "savings") = false →
          strContains (toLowerStr text) "credit" = true →
          extractAccountType text = "credit")
      ∧ ((strContains (toLowerStr text) "saver"
          || strContains (toLowerStr text) "savings") = false →
          strContains (toLowerStr text) "credit" = false →
          strContains (toLowerStr text) "loan" = true →
          extractAccountType text = "loan")
      ∧ ((strContains (toLowerStr text) "saver"
          || strContains (toLowerStr text) "savings") = false →
          strContains (toLowerStr text) "credit" = false →
          strContains (toLowerStr text) "loan" = false →
          strContains (toLowerStr text) "investment" = true →
          extractAccountType text = "investment")
      ∧ ((strContains (toLowerStr text) "saver"
          || strContains (toLowerStr text) "savings") = false →
          strContains (toLowerStr text) "credit" = false →
          strContains (toLowerStr text) "loan" = false →
          strContains (toLowerStr text) "investment" = false →
          extractAccountType text = "checking"))
    ∧ extractAccountType "reward saver" = "savings"
    ∧ extractAccountType "credit card" = "credit"
    ∧ extractAccountType "credit and savings" = "savings"
    ∧ extractAccountType "everyday transaction" = "checking" := by
  refine ⟨fun text => ⟨?_, ?_, ?_, ?_, ?_⟩, by decide, by decide, by decide, by decide⟩
  · intro h
    simp [extractAccountType, h, accountTypeSavings]
  · intro h hc
    simp [extractAccountType, h, hc, accountTypeCredit]
  · intro h hc hl
    simp [extractAccountType, h, hc, hl, accountTypeLoan]
  · intro h hc hl hi
    simp [extractAccountType, h, hc, hl, hi, accountTypeInvestment]
  · intro h hc hl hi
    simp [extractAccountType, h, hc, hl, hi, accountTypeChecking]

/-- Witness for C5: the middle (credit) rule applied at a concrete text,
discharging the ordering hypotheses. -/
theorem extractAccountType_spec_witness :
    extractAccountType "Low Rate Credit Card" = "credit" :=
  (extractAccountType_spec.1 "Low Rate Credit Card").2.1 (by decide) (by decide)

/-! ## Structure of the currency matches (claims C4, C6, C10) -/

/-- Every element kept by `takeWhile` satisfies the predicate. -/
theorem mem_takeWhile_pred {α : Type} (p : α → Bool) (l : List α) :
    ∀ c ∈ l.takeWhile p, p c = true := by
  induction l with
  | nil => simp
  | cons a t ih =>
    intro c hc
    rw [List.takeWhile_cons] at hc
    by_cases hp : p a = true
    · rw [if_pos hp] at hc
      rcases List.mem_cons.mp hc with h | h
      · rw [h]; exact hp
      · exact ih c h
    · rw [if_neg hp] at hc
      simp at hc

/-- `takeWhile` over a satisfying prefix followed by a failing element. -/
theorem takeWhile_all_append {α : Type} (p : α → Bool) (l1 l2 : List α)
    (x : α) (h1 : ∀ c ∈ l1, p c = true) (hx : p x = false) :
    (l1 ++ x :: l2).takeWhile p = l1 := by
  induction l1 with
  | nil => simp [List.takeWhile_cons, hx]
  | cons a t ih =>
    have ha : p a = true := h1 a (by simp)
    simp only [List.cons_append, List.takeWhile_cons, ha, if_true]
    rw [ih (fun c hc => h1 c (by simp [hc]))]

/-- `dropWhile` over a satisfying prefix followed by a failing element. -/
theorem dropWhile_all_append {α : Type} (p : α → Bool) (l1 l2 : List α)
    (x : α) (h1 : ∀ c ∈ l1, p c = true) (hx : p x = false) :
    (l1 ++ x :: l2).dropWhile p = x :: l2 := by
  induction l1 with
  | nil => simp [List.dropWhile_cons, hx]
  | cons a t ih =>
    have ha : p a = true := h1 a (by simp)
    simp only [List.cons_append, List.dropWhile_cons, ha, if_true]
    exact ih (fun c hc => h1 c (by simp [hc]))

/-- A successful `matchAmount` is a nonempty `[\d,]` run, a dot and two
digits. -/
theorem matchAmount_some (l m r : List Char)
    (h : matchAmount l = some (m, r)) :
    ∃ run d1 d2, m = run ++ ['.', d1, d2] ∧ run ≠ []
      ∧ (∀ c ∈ run, isAmtChar c = true)
      ∧ d1.isDigit = true ∧ d2.isDigit = true := by
  unfold matchAmount at h
  split at h
  · rename_i d1 d2 r2 heq
    split at h
    · exact absurd h (by simp)
    · rename_i hrun
      split at h
      · rename_i hdig
        simp only [Option.some.injEq, Prod.mk.injEq] at h
        refine ⟨l.takeWhile isAmtChar, d1, d2, h.1.symm, ?_,
          mem_takeWhile_pred isAmtChar l, ?_, ?_⟩
        · intro hnil
          rw [hnil] at hrun
          exact hrun rfl
        · exact ((Bool.and_eq_true _ _).mp hdig).1
        · exact ((Bool.and_eq_true _ _).mp hdig).2
      · exact absurd h (by simp)
  · exact absurd h (by simp)

/-- Every match reported by the page-level scanner is a dollar sign, a
nonempty `[\d,]` run, a dot and two digits. -/
theorem findBalancesFuel_shape :
    ∀ (fuel : Nat) (l m : List Char), m ∈ findBalancesFuel fuel l →
    ∃ run d1 d2, m = '$' :: (run ++ ['.', d1, d2]) ∧ run ≠ []
      ∧ (∀ c ∈ run, isAmtChar c = true)
      ∧ d1.isDigit = true ∧ d2.isDigit = true := by
  intro fuel
  induction fuel with
  | zero => intro l m h; simp [findBalancesFuel] at h
  | succ f ih =>
    intro l m h
    cases l with
    | nil => simp [findBalancesFuel] at h
    | cons c rest =>
      simp only [findBalancesFuel] at h
      by_cases hc : c = '$'
      · rw [if_pos hc] at h
        cases hm : matchAmount rest with
        | none => rw [hm] at h; exact ih rest m h
        | some pr =>
          rcases pr with ⟨mm, r2⟩
          rw [hm] at h
          rcases List.mem_cons.mp h with h | h
          · obtain ⟨run, d1, d2, hmm, hne, hall, h1, h2⟩ :=
              matchAmount_some rest mm r2 hm
            exact ⟨run, d1, d2, by rw [h, hmm], hne, hall, h1, h2⟩
          · exact ih r2 m h
      · rw [if_neg hc] at h
        exact ih rest m h

/-- A text without a dollar sign has no currency match at all. -/
theorem findBalancesFuel_no_dollar :
    ∀ (fuel : Nat) (l : List Char), (∀ c ∈ l, c ≠ '$') →
    findBalancesFuel fuel l = [] := by
  intro fuel
  induction fuel with
  | zero => intro l _; cases l <;> rfl
  | succ f ih =>
    intro l h
    cases l with
    | nil => rfl
    | cons c rest =>
      have hc : ¬(c = '$') := h c (by simp)
      simp only [findBalancesFuel, if_neg hc]
      exact ih rest (fun x hx => h x (by simp [hx]))

/-- A digit is not a comma (boolean form). -/
theorem digit_bne_comma (c : Char) (h : c.isDigit = true) :
    (c != ',') = true := by
  have hne : c ≠ ',' := by
    intro hh
    rw [hh] at h
    exact absurd h (by decide)
  exact bne_iff_ne.mpr hne

/-- Cleaning a reported match leaves digits, one dot and two fraction
digits. -/
theorem cleanChars_normalized (m : List Char)
    (hm : ∃ run d1 d2, m = '$' :: (run ++ ['.', d1, d2]) ∧ run ≠ []
      ∧ (∀ c ∈ run, isAmtChar c = true)
      ∧ d1.isDigit = true ∧ d2.isDigit = true) :
    isNormalizedChars (cleanChars m) = true := by
  obtain ⟨run, d1, d2, hm, hne, hall, h1, h2⟩ := hm
  subst hm
  show isNormalizedChars ((trimDollar ('$' :: (run ++ ['.', d1, d2]))).filter
    (fun c => c != ',')) = true
  rw [show trimDollar ('$' :: (run ++ ['.', d1, d2])) = run ++ ['.', d1, d2]
    from rfl]
  rw [List.filter_append]
  rw [show ['.', d1, d2].filter (fun c => c != ',') = ['.', d1, d2] by
    simp [List.filter, digit_bne_comma d1 h1, digit_bne_comma d2 h2]]
  unfold isNormalizedChars
  rw [show (run.filter (fun c => c != ',') ++ ['.', d1, d2]).reverse
      = d2 :: d1 :: '.' :: (run.filter (fun c => c != ',')).reverse by
    simp]
  simp only [h1, h2, Bool.true_and]
  rw [List.all_eq_true]
  intro c hc
  rw [List.mem_reverse] at hc
  obtain ⟨hcr, hcc⟩ := List.mem_filter.mp hc
  have := hall c hcr
  rw [isAmtChar, Bool.or_eq_true] at this
  rcases this with hd | hd
  · exact hd
  · exact absurd (by simpa using hd) (by simpa using hcc)

/-- Length of the built account list. -/
theorem buildAccounts_length :
    ∀ (n : Nat) (l : List (List Char)),
    (buildAccounts n l).length = l.length := by
  intro n l
  induction l generalizing n with
  | nil => rfl
  | cons b t ih => simp [buildAccounts, ih]

/-- Balance amounts of the built accounts, in order. -/
theorem buildAccounts_map_amount :
    ∀ (n : Nat) (l : List (List Char)),
    (buildAccounts n l).map (fun a => a.balance.amount)
      = l.map (fun m => String.mk (cleanChars m)) := by
  intro n l
  induction l generalizing n with
  | nil => rfl
  | cons b t ih => simp [buildAccounts, mkScrapedAccount, ih]

/-- Identifiers of the built accounts: positional, starting at `n`. -/
theorem buildAccounts_map_id :
    ∀ (n : Nat) (l : List (List Char)),
    (buildAccounts n l).map (fun a => a.id)
      = (List.range l.length).map (fun k => "account_" ++ toString (n + k)) := by
  intro n l
  induction l generalizing n with
  | nil => rfl
  | cons b t ih =>
    have hfun : (fun k => "account_" ++ toString (n + 1 + k))
        = ((fun k => "account_" ++ toString (n + k)) ∘ Nat.succ) := by
      funext k
      simp only [Function.comp_apply]
      have hnk : n + 1 + k = n + (k + 1) := by omega
      rw [hnk]
    simp only [buildAccounts, List.map_cons, List.length_cons,
      List.range_succ_eq_map, mkScrapedAccount, List.map_map]
    rw [ih (n + 1), hfun, Nat.add_zero]

/-- The `i`-th built account is the record for the `i`-th match with
position `n + i`. -/
theorem buildAccounts_get :
    ∀ (l : List (List Char)) (n i : Nat)
      (h : i < (buildAccounts n l).length) (h2 : i < l.length),
    (buildAccounts n l).get ⟨i, h⟩ = mkScrapedAccount (n + i) (l.get ⟨i, h2⟩) := by
  intro l
  induction l with
  | nil => intro n i h h2; simp at h2
  | cons b t ih =>
    intro n i h h2
    cases i with
    | zero => rfl
    | succ j =>
      have hj : j < (buildAccounts (n + 1) t).length := by
        rw [buildAccounts_length]
        exact Nat.lt_of_succ_lt_succ h2
      have hj2 : j < t.length := Nat.lt_of_succ_lt_succ h2
      have : (buildAccounts n (b :: t)).get ⟨j + 1, h⟩
          = (buildAccounts (n + 1) t).get ⟨j, hj⟩ := rfl
      rw [this, ih (n + 1) j hj hj2]
      congr 1
      omega

/-- All built accounts satisfy a predicate that holds of each record. -/
theorem buildAccounts_all (P : Account → Bool) :
    ∀ (n : Nat) (l : List (List Char)),
    (∀ k b, b ∈ l → P (mkScrapedAccount k b) = true) →
    (buildAccounts n l).all P = true := by
  intro n l
  induction l generalizing n with
  | nil => intro _; rfl
  | cons b t ih =>
    intro h
    simp only [buildAccounts, List.all_cons, Bool.and_eq_true]
    exact ⟨h n b (by simp), ih (n + 1) (fun k c hc => h k c (by simp [hc]))⟩

/-! ## Claims C4, C10, C6 -/

/-- Claim C4: the generic extractor yields exactly one account per
occurrence of the currency pattern, in occurrence order, identifiers
synthesized as `account_<n>` with `n` starting at 1, balances normalized
by dropping the `$` and all commas (leaving digits, one dot and exactly
two fraction digits); zero occurrences give the empty list (which
`scrapeAccounts` reports as success, never as an error). -/
theorem extractAccountsGeneric_spec (text : String) :
    (extractAccountsGeneric text).length = (findBalances text.data).length
    ∧ (extractAccountsGeneric text).map (fun a => a.balance.amount)
        = (findBalances text.data).map (fun m => String.mk (cleanChars m))
    ∧ (extractAccountsGeneric text).map (fun a => a.id)
        = (List.range (findBalances text.data).length).map
            (fun k => "account_" ++ toString (k + 1))
    ∧ (extractAccountsGeneric text).all
        (fun a => isNormalizedAmount a.balance.amount) = true
    ∧ (findBalances text.data = [] → extractAccountsGeneric text = [])
    ∧ (∀ env : BrowserEnv,
        scrapeAccountsStep env = Except.ok (extractAccountsGeneric env.pageSource)) := by
  refine ⟨buildAccounts_length 1 _, buildAccounts_map_amount 1 _, ?_, ?_, ?_,
    fun _ => rfl⟩
  · have hfun : (fun k => "account_" ++ toString (1 + k))
        = (fun k => "account_" ++ toString (k + 1)) := by
      funext k
      rw [Nat.add_comm]
    rw [show extractAccountsGeneric text
        = buildAccounts 1 (findBalances text.data) from rfl]
    rw [buildAccounts_map_id 1, hfun]
  · apply buildAccounts_all
    intro k b hb
    have hsh := findBalancesFuel_shape text.data.length text.data b hb
    show isNormalizedChars (cleanChars b) = true
    exact cleanChars_normalized b hsh
  · intro h
    unfold extractAccountsGeneric
    rw [h]
    rfl

/-- Witness for C4: a page without any currency pattern extracts to the
empty list, and a page with two amounts yields only normalized balance
strings. -/
theorem extractAccountsGeneric_spec_witness :
    extractAccountsGeneric "no amounts here" = []
    ∧ (extractAccountsGeneric "$1,234.56 and $7.89").all
        (fun a => isNormalizedAmount a.balance.amount) = true :=
  ⟨(extractAccountsGeneric_spec "no amounts here").2.2.2.2.1 (by decide),
    (extractAccountsGeneric_spec "$1,234.56 and $7.89").2.2.2.1⟩

/-- Claim C10: every account produced by the generic scraping extractor
has type `savings`, display name `NAB Account <n>` for its 1-based
position, and an available balance present and equal to the current
balance, regardless of the page content — the keyword classifier and the
name/number/BSB extractors play no part on this path. -/
theorem extractAccountsGeneric_constant_fields (text : String) (i : Nat)
    (h : i < (extractAccountsGeneric text).length) :
    ((extractAccountsGeneric text).get ⟨i, h⟩).type = accountTypeSavings
    ∧ ((extractAccountsGeneric text).get ⟨i, h⟩).name
        = "NAB Account " ++ toString (i + 1)
    ∧ ((extractAccountsGeneric text).get ⟨i, h⟩).availableBalance
        = some ((extractAccountsGeneric text).get ⟨i, h⟩).balance := by
  have h2 : i < (findBalances text.data).length := by
    have hl : (extractAccountsGeneric text).length
        = (findBalances text.data).length := buildAccounts_length 1 _
    omega
  have hget : (extractAccountsGeneric text).get ⟨i, h⟩
      = mkScrapedAccount (1 + i) ((findBalances text.data).get ⟨i, h2⟩) :=
    buildAccounts_get (findBalances text.data) 1 i h h2
  rw [hget]
  refine ⟨rfl, ?_, rfl⟩
  show "NAB Account " ++ toString (1 + i) = "NAB Account " ++ toString (i + 1)
  rw [Nat.add_comm]

/-- Witness for C10: a page mentioning `credit card` still yields a
`savings`-typed account with the placeholder name. -/
theorem extractAccountsGeneric_constant_fields_witness :
    ((extractAccountsGeneric "Visa $99.95 credit card").get ⟨0, by decide⟩).type
      = accountTypeSavings
    ∧ ((extractAccountsGeneric "Visa $99.95 credit card").get ⟨0, by decide⟩).name
        = "NAB Account " ++ toString (0 + 1)
    ∧ ((extractAccountsGeneric "Visa $99.95 credit card").get
          ⟨0, by decide⟩).availableBalance
        = some ((extractAccountsGeneric "Visa $99.95 credit card").get
          ⟨0, by decide⟩).balance :=
  extractAccountsGeneric_constant_fields "Visa $99.95 credit card" 0 (by decide)

/-- Counterexample for C6: extracting `$2,543.67` yields the normalized
amount `2543.67`, but re-running the page-level extractor on the text
`2543.67` — which consists of exactly that already-normalized amount —
yields the empty list, not the same amounts: the pattern requires a
leading `$` which normalization has removed. -/
theorem extraction_idempotence_counterexample :
    (extractAccountsGeneric "$2,543.67").map (fun a => a.balance.amount)
      = ["2543.67"]
    ∧ extractAccountsGeneric "2543.67" = [] :=
  ⟨rfl, rfl⟩

/-- Claim C6, amended: the page-level extractor is not idempotent — on any
text without a dollar sign (in particular its own normalized output) it
extracts nothing — while the single-amount helper `extractBalance`, whose
pattern makes the currency symbol optional, is idempotent on a normalized
amount with a nonempty integer part: it maps such a string to itself. -/
theorem extraction_idempotence_amended :
    (∀ text : String, (∀ c ∈ text.data, c ≠ '$') →
      extractAccountsGeneric text = [])
    ∧ (∀ (ds : List Char) (d1 d2 : Char), ds ≠ [] →
        (∀ c ∈ ds, c.isDigit = true) → d1.isDigit = true → d2.isDigit = true →
        extractBalance (String.mk (ds ++ ['.', d1, d2]))
          = String.mk (ds ++ ['.', d1, d2])) := by
  constructor
  · intro text h
    unfold extractAccountsGeneric findBalances
    rw [findBalancesFuel_no_dollar text.data.length text.data h]
    rfl
  · intro ds d1 d2 hne hds h1 h2
    have hall : ∀ c ∈ ds, isAmtChar c = true := fun c hc => by
      unfold isAmtChar
      rw [hds c hc]
      rfl
    have hdot : isAmtChar '.' = false := by decide
    have htake : (ds ++ '.' :: [d1, d2]).takeWhile isAmtChar = ds :=
      takeWhile_all_append isAmtChar ds [d1, d2] '.' hall hdot
    have hdrop : (ds ++ '.' :: [d1, d2]).dropWhile isAmtChar = '.' :: [d1, d2] :=
      dropWhile_all_append isAmtChar ds [d1, d2] '.' hall hdot
    have hmatch : matchAmount (ds ++ ['.', d1, d2])
        = some (ds ++ ['.', d1, d2], []) := by
      unfold matchAmount
      rw [hdrop, htake]
      simp [hne, h1, h2]
    obtain ⟨d, ds', rfl⟩ : ∃ d ds', ds = d :: ds' := by
      cases ds with
      | nil => exact absurd rfl hne
      | cons d ds' => exact ⟨d, ds', rfl⟩
    have hd : d.isDigit = true := hds d (by simp)
    have hdne : ¬(d = '$') := by
      intro hh
      rw [hh] at hd
      exact absurd hd (by decide)
    have haux : extractBalanceAux (d :: (ds' ++ ['.', d1, d2]))
        = some ((d :: ds') ++ ['.', d1, d2]) := by
      simp only [extractBalanceAux]
      rw [if_neg hdne]
      rw [show matchAmount (d :: (ds' ++ ['.', d1, d2]))
          = matchAmount ((d :: ds') ++ ['.', d1, d2]) from rfl, hmatch]
    have hfil : ((d :: ds') ++ ['.', d1, d2]).filter (fun c => c != ',')
        = (d :: ds') ++ ['.', d1, d2] := by
      rw [List.filter_eq_self]
      intro c hc
      rcases List.mem_append.mp hc with hc | hc
      · exact digit_bne_comma c (hds c hc)
      · simp only [List.mem_cons, List.not_mem_nil, or_false] at hc
        rcases hc with hc | hc | hc
        · subst hc; decide
        · subst hc; exact digit_bne_comma _ h1
        · subst hc; exact digit_bne_comma _ h2
    unfold extractBalance
    rw [show (String.mk ((d :: ds') ++ ['.', d1, d2])).data
        = d :: (ds' ++ ['.', d1, d2]) from rfl, haux]
    exact congrArg String.mk hfil

/-- Witness for C6 (amended): both parts at concrete inputs — the
dollar-free text `2543.67` re-extracts to nothing, and `extractBalance`
fixes the normalized amount `2543.67`. -/
theorem extraction_idempotence_amended_witness :
    extractAccountsGeneric "2543.67" = []
    ∧ extractBalance (String.mk (['2', '5', '4', '3'] ++ ['.', '6', '7']))
        = String.mk (['2', '5', '4', '3'] ++ ['.', '6', '7']) :=
  ⟨extraction_idempotence_amended.1 "2543.67" (by decide),
    extraction_idempotence_amended.2 ['2', '5', '4', '3'] '6' '7'
      (by decide) (by decide) (by decide) (by decide)⟩

end NabApi
